import Mathlib

/-!
Shallow embedding of the kirk-api payment gating and dynamic dual-token
pricing subsystem (src/config/tokens.ts, src/config/pricing.ts,
src/lib/payments.ts, src/lib/ksvc-client.ts), together with theorems
settling the frozen claims about it.

Modelling conventions:
- JavaScript numbers are modelled as exact rationals (ℚ); the arithmetic
  of the quote pipeline is specified at this level of abstraction and
  IEEE-754 rounding is outside the model.
- The functions Math.ceil, Math.floor and Math.round are Int.ceil,
  Int.floor and the map x ↦ ⌊x + 1/2⌋ (JavaScript rounds half toward +∞).
- Stateful module-level variables (kirkPriceCache, the data cache) are
  passed explicitly as state; Date.now() becomes an explicit argument;
  an awaited external fetch becomes an explicit argument describing its
  outcome (an exception-or-value sum).
- Environment variables are absent in the deployment modelled here, so
  the token configuration takes the literal defaults of tokens.ts.
-/

/-! ## src/config/tokens.ts -/

def KIRK_TOKEN_ADDRESS : String := "0x73b83F8553480e8A8bb56B53618d5e70C8051e37"

def KIRK_TOKEN_DECIMALS : ℕ := 18

def USDC_ADDRESS : String := "0x833589fCD6eDb6E08f4c7C32D4f71b54bdA02913"

def USDC_DECIMALS : ℕ := 6

def KIRK_TREASURY_ADDRESS : String := "0x54376e042acd7cf3bea1a40aff9c33b47e7ec5de"

def NETWORK : String := "eip155:8453"

/-! ## src/config/pricing.ts -/

inductive Tier : Type
  | free
  | light
  | standard
  | deep
  | signals
deriving DecidableEq, Repr

structure EndpointPrice : Type where
  usdcPrice : ℚ
  tier : Tier
deriving DecidableEq, Repr

/-- ENDPOINT_PRICES of src/config/pricing.ts, as an association list
(the TypeScript object literal has pairwise distinct keys). -/
def ENDPOINT_PRICES : List (String × EndpointPrice) :=
  [ ("health", ⟨0, Tier.free⟩),
    ("models", ⟨0, Tier.free⟩),
    ("info", ⟨0, Tier.free⟩),
    ("summary", ⟨1/100, Tier.light⟩),
    ("model-info", ⟨1/100, Tier.light⟩),
    ("leaderboard", ⟨1/100, Tier.light⟩),
    ("performance", ⟨5/100, Tier.standard⟩),
    ("holdings", ⟨5/100, Tier.standard⟩),
    ("holdings-top", ⟨5/100, Tier.standard⟩),
    ("holding", ⟨5/100, Tier.standard⟩),
    ("stats", ⟨5/100, Tier.standard⟩),
    ("history-monthly", ⟨10/100, Tier.deep⟩),
    ("tradebook", ⟨10/100, Tier.deep⟩),
    ("positions", ⟨10/100, Tier.deep⟩),
    ("compare", ⟨10/100, Tier.deep⟩),
    ("trades-recent", ⟨10/100, Tier.signals⟩),
    ("trades-filled", ⟨10/100, Tier.signals⟩),
    ("trades-pending", ⟨10/100, Tier.signals⟩) ]

/-- The indexing ENDPOINT_PRICES[endpointKey] of the TypeScript record. -/
def lookupEndpoint (endpointKey : String) : Option EndpointPrice :=
  (ENDPOINT_PRICES.find? (fun kv => kv.1 == endpointKey)).map (fun kv => kv.2)

/-! ## src/lib/payments.ts — config and price feed -/

def KIRK_DISCOUNT : ℚ := 3/10

def PAY_TO : String := KIRK_TREASURY_ADDRESS

def PRICE_CACHE_TTL : ℤ := 5 * 60 * 1000

/-- The hard-coded floor price 0.0000003 used by fetchKirkPrice when no
cached snapshot is available. -/
def KIRK_FLOOR_PRICE : ℚ := 3/10000000

/-- The module-level kirkPriceCache entries: `{ priceUsd, fetchedAt }`. -/
structure PriceSnapshot : Type where
  priceUsd : ℚ
  fetchedAt : ℤ
deriving DecidableEq, Repr

/-- The expression `kirkPriceCache?.priceUsd || 0.0000003` from the last
line of fetchKirkPrice: optional chaining yields undefined on a null
cache, and `||` replaces a falsy (0) price by the floor constant. -/
def kirkPriceFallback (cache : Option PriceSnapshot) : ℚ :=
  match cache with
  | some c => if c.priceUsd = 0 then KIRK_FLOOR_PRICE else c.priceUsd
  | none => KIRK_FLOOR_PRICE

/-- Body of fetchKirkPrice after the TTL check: the try/catch around the
external DexScreener fetch. The argument fetchResult is none when the
fetch or JSON parse throws, and some p when it yields a response whose
parsed price is p (parseFloat of a missing field gives 0, and a NaN
parse behaves like a non-positive price in the `priceUsd > 0` test, so
a rational argument covers all parse outcomes). Returns the value of
the function together with the new kirkPriceCache. -/
def fetchKirkPriceRefresh (cache : Option PriceSnapshot) (now : ℤ)
    (fetchResult : Option ℚ) : ℚ × Option PriceSnapshot :=
  match fetchResult with
  | some priceUsd =>
      if 0 < priceUsd then (priceUsd, some ⟨priceUsd, now⟩)
      else (kirkPriceFallback cache, cache)
  | none => (kirkPriceFallback cache, cache)

/-- fetchKirkPrice (src/lib/payments.ts lines 46-67): serve from the
cached snapshot while it is younger than PRICE_CACHE_TTL, otherwise
refresh via the external feed with stale-or-floor fallback. -/
def fetchKirkPrice (cache : Option PriceSnapshot) (now : ℤ)
    (fetchResult : Option ℚ) : ℚ × Option PriceSnapshot :=
  match cache with
  | some c =>
      if now - c.fetchedAt < PRICE_CACHE_TTL then (c.priceUsd, cache)
      else fetchKirkPriceRefresh cache now fetchResult
  | none => fetchKirkPriceRefresh cache now fetchResult

/-! ## src/lib/payments.ts — quote calculation -/

/-- calculateKirkAmount (lines 69-73): ceil of the discounted USD price
divided by the KIRK price, 0 when the KIRK price is non-positive. -/
def calculateKirkAmount (usdcPrice kirkPriceUsd : ℚ) : ℤ :=
  if kirkPriceUsd ≤ 0 then 0
  else ⌈usdcPrice * (1 - KIRK_DISCOUNT) / kirkPriceUsd⌉

/-- Integer value of kirkToRaw (lines 75-79): Math.floor of the display
amount scaled by 10 ^ KIRK_TOKEN_DECIMALS. -/
def kirkToRawInt (kirkAmount : ℚ) : ℤ :=
  ⌊kirkAmount * 10 ^ KIRK_TOKEN_DECIMALS⌋

/-- kirkToRaw (lines 75-79): BigInt(...).toString() of kirkToRawInt. -/
def kirkToRaw (kirkAmount : ℚ) : String :=
  toString (kirkToRawInt kirkAmount)

/-- Integer value of usdcToRaw (lines 81-83): Math.round (half toward
+∞, i.e. ⌊x + 1/2⌋) of the amount scaled by 10 ^ USDC_DECIMALS. -/
def usdcToRawInt (usdcAmount : ℚ) : ℤ :=
  ⌊usdcAmount * 10 ^ USDC_DECIMALS + 1/2⌋

/-- usdcToRaw (lines 81-83): BigInt(...).toString() of usdcToRawInt. -/
def usdcToRaw (usdcAmount : ℚ) : String :=
  toString (usdcToRawInt usdcAmount)

/-! ## src/lib/payments.ts — dual-token accepts builder -/

structure PriceExtra : Type where
  name : String
  symbol : String
  decimals : ℕ
deriving DecidableEq, Repr

structure ReqPrice : Type where
  asset : String
  amount : String
  extra : PriceExtra
deriving DecidableEq, Repr

/-- One entry of the accepts array built by dualTokenAccepts. -/
structure Requirement : Type where
  scheme : String
  network : String
  payTo : String
  price : ReqPrice
deriving DecidableEq, Repr

/-- dualTokenAccepts (lines 89-119): empty for a missing key or a zero
USDC price, otherwise the two-element array [USDC exact, KIRK upto]. -/
def dualTokenAccepts (endpointKey : String) (kirkPriceUsd : ℚ) :
    List Requirement :=
  match lookupEndpoint endpointKey with
  | none => []
  | some ep =>
      if ep.usdcPrice = 0 then []
      else
        [ { scheme := "exact", network := NETWORK, payTo := PAY_TO,
            price := { asset := USDC_ADDRESS,
                       amount := usdcToRaw ep.usdcPrice,
                       extra := { name := "USD Coin", symbol := "USDC",
                                  decimals := USDC_DECIMALS } } },
          { scheme := "upto", network := NETWORK, payTo := PAY_TO,
            price := { asset := KIRK_TOKEN_ADDRESS,
                       amount := kirkToRaw
                         ((calculateKirkAmount ep.usdcPrice kirkPriceUsd : ℤ) : ℚ),
                       extra := { name := "Kirk", symbol := "KIRK",
                                  decimals := KIRK_TOKEN_DECIMALS } } } ]

/-! ## src/lib/payments.ts — routes config and middleware factory -/

/-- One route entry of the config passed to the payment middleware. -/
structure RouteConfigEntry : Type where
  accepts : List Requirement
  description : String
  mimeType : String
deriving DecidableEq, Repr

/-- buildRoutesConfig (lines 125-210): the full routes table, each route
carrying the accepts array computed from the kirkPriceUsd argument. -/
def buildRoutesConfig (kirkPriceUsd : ℚ) : List (String × RouteConfigEntry) :=
  [ ("GET /models/[model]/summary",
      ⟨dualTokenAccepts "summary" kirkPriceUsd,
       "Quick model snapshot", "application/json"⟩),
    ("GET /models/[model]/info",
      ⟨dualTokenAccepts "model-info" kirkPriceUsd,
       "Model metadata", "application/json"⟩),
    ("GET /leaderboard",
      ⟨dualTokenAccepts "leaderboard" kirkPriceUsd,
       "Model performance leaderboard", "application/json"⟩),
    ("GET /models/[model]/performance",
      ⟨dualTokenAccepts "performance" kirkPriceUsd,
       "Full performance metrics", "application/json"⟩),
    ("GET /models/[model]/holdings",
      ⟨dualTokenAccepts "holdings" kirkPriceUsd,
       "All holdings with returns", "application/json"⟩),
    ("GET /models/[model]/holdings/top",
      ⟨dualTokenAccepts "holdings-top" kirkPriceUsd,
       "Top N holdings by return", "application/json"⟩),
    ("GET /models/[model]/holdings/[ticker]",
      ⟨dualTokenAccepts "holding" kirkPriceUsd,
       "Single holding detail + daily history", "application/json"⟩),
    ("GET /models/[model]/stats",
      ⟨dualTokenAccepts "stats" kirkPriceUsd,
       "Best/worst performers, averages", "application/json"⟩),
    ("GET /models/[model]/history/monthly",
      ⟨dualTokenAccepts "history-monthly" kirkPriceUsd,
       "Monthly returns + win/lose stats", "application/json"⟩),
    ("GET /models/[model]/tradebook",
      ⟨dualTokenAccepts "tradebook" kirkPriceUsd,
       "Full position ledger", "application/json"⟩),
    ("GET /models/[model]/positions",
      ⟨dualTokenAccepts "positions" kirkPriceUsd,
       "Open positions only", "application/json"⟩),
    ("GET /compare",
      ⟨dualTokenAccepts "compare" kirkPriceUsd,
       "Multi-model comparison", "application/json"⟩),
    ("GET /models/[model]/trades/recent",
      ⟨dualTokenAccepts "trades-recent" kirkPriceUsd,
       "Recent filled orders", "application/json"⟩),
    ("GET /models/[model]/trades/filled",
      ⟨dualTokenAccepts "trades-filled" kirkPriceUsd,
       "All filled orders", "application/json"⟩),
    ("GET /models/[model]/trades/pending",
      ⟨dualTokenAccepts "trades-pending" kirkPriceUsd,
       "Pending orders", "application/json"⟩) ]

/-- The observable pricing state of the created middleware: the
module-level kirkPriceCache plus the routes table that
createHonoPaymentMiddleware captured at creation. -/
structure MiddlewareState : Type where
  priceCache : Option PriceSnapshot
  routes : List (String × RouteConfigEntry)
deriving DecidableEq, Repr

/-- createPaymentMiddleware (lines 216-256): fetch the initial KIRK
price (updating the price cache) and build the routes config once from
that price; the middleware keeps this table for its whole lifetime. -/
def createPaymentMiddleware (cache : Option PriceSnapshot) (now : ℤ)
    (fetchResult : Option ℚ) : MiddlewareState :=
  { priceCache := (fetchKirkPrice cache now fetchResult).2,
    routes := buildRoutesConfig (fetchKirkPrice cache now fetchResult).1 }

/-- One tick of the setInterval callback (lines 244-249): it calls
fetchKirkPrice (updating the price cache) and logs; the routes table of
the middleware is not touched. -/
def refreshTick (st : MiddlewareState) (now : ℤ) (fetchResult : Option ℚ) :
    MiddlewareState :=
  { st with priceCache := (fetchKirkPrice st.priceCache now fetchResult).2 }

/-- A sequence of refresh ticks after middleware creation, each with its
own clock reading and fetch outcome. -/
def runRefreshes (st : MiddlewareState) (evs : List (ℤ × Option ℚ)) :
    MiddlewareState :=
  evs.foldl (fun s ev => refreshTick s ev.1 ev.2) st

/-- The requirement set the payment middleware quotes for a route: the
accepts array of the routes table captured at creation. -/
def quoteForRoute (st : MiddlewareState) (routeKey : String) :
    Option (List Requirement) :=
  ((st.routes.find? (fun kv => kv.1 == routeKey)).map
    (fun kv => kv.2)).map (fun e => e.accepts)

/-! ## src/lib/ksvc-client.ts — data cache -/

/-- One entry of the module-level cache Map: `{ data, expires }`. -/
structure CacheEntry (V : Type) : Type where
  data : V
  expires : ℤ
deriving DecidableEq, Repr

def CACHE_TTL : ℤ := 60 * 60 * 1000

/-- The cache Map, as an association list with at most one entry per
key (Map.set replaces in place). -/
abbrev Cache (V : Type) : Type := List (String × CacheEntry V)

/-- cache.get(key). -/
def cacheGet {V : Type} (c : Cache V) (key : String) : Option (CacheEntry V) :=
  (List.find? (fun kv => kv.1 == key) c).map (fun kv => kv.2)

/-- cache.set(key, e): replace the entry for key, or append one. -/
def cacheSet {V : Type} (c : Cache V) (key : String) (e : CacheEntry V) :
    Cache V :=
  match c with
  | [] => [(key, e)]
  | kv :: rest =>
      if kv.1 == key then (key, e) :: rest else kv :: cacheSet rest key e

/-- cachedFetch (src/lib/ksvc-client.ts lines 97-106), sequential
semantics: the fetcher argument is the outcome of awaiting fetcher()
(an exception of type E or a value of type V); the result pairs what
the call returns (or throws) with the cache it leaves behind. Both
Date.now() reads of one call are modelled by the same instant now. -/
def cachedFetch {V E : Type} (c : Cache V) (now : ℤ) (key : String)
    (fetcher : Except E V) : Except E V × Cache V :=
  match cacheGet c key with
  | some cached =>
      if now < cached.expires then (Except.ok cached.data, c)
      else
        match fetcher with
        | Except.ok v => (Except.ok v, cacheSet c key ⟨v, now + CACHE_TTL⟩)
        | Except.error e => (Except.error e, c)
  | none =>
      match fetcher with
      | Except.ok v => (Except.ok v, cacheSet c key ⟨v, now + CACHE_TTL⟩)
      | Except.error e => (Except.error e, c)

/-! ## src/lib/ksvc-client.ts — cachedFetch under concurrency

Node's event loop interleaves concurrent cachedFetch calls for the same
key at their await points. Each call makes two atomic steps: first the
cache lookup up to the point where fetcher() is invoked (`await` starts
the upstream fetch), then — if the lookup missed — the resumption after
the fetch resolves, which stores the result and returns. The scheduler
is an arbitrary list of call indices. All calls share one key and the
upstream resolves with the same value v for each invocation. -/

inductive CallState (V : Type) : Type
  | start
  | fetching
  | done (v : V)
deriving DecidableEq, Repr

structure ConcState (V : Type) : Type where
  cache : Cache V
  fetchCount : ℕ
  calls : List (CallState V)
deriving DecidableEq, Repr

/-- Run the next atomic step of call i (no-op when i is finished or out
of range). A start step that hits a live entry finishes immediately; a
start step that misses invokes the upstream fetcher (fetchCount + 1)
and suspends; a fetching step resumes, stores and finishes. -/
def concStep {V : Type} (now : ℤ) (key : String) (v : V)
    (st : ConcState V) (i : ℕ) : ConcState V :=
  match st.calls[i]? with
  | some CallState.start =>
      match cacheGet st.cache key with
      | some cached =>
          if now < cached.expires then
            { st with calls := st.calls.set i (CallState.done cached.data) }
          else
            { st with fetchCount := st.fetchCount + 1,
                      calls := st.calls.set i CallState.fetching }
      | none =>
          { st with fetchCount := st.fetchCount + 1,
                    calls := st.calls.set i CallState.fetching }
  | some CallState.fetching =>
      { st with cache := cacheSet st.cache key ⟨v, now + CACHE_TTL⟩,
                calls := st.calls.set i (CallState.done v) }
  | _ => st

/-- N concurrent cachedFetch calls for one key, none yet started, with
an empty cache (no live entry). -/
def concInit (V : Type) (n : ℕ) : ConcState V :=
  { cache := [], fetchCount := 0, calls := List.replicate n CallState.start }

/-- Run a schedule of atomic steps. -/
def concRun {V : Type} (now : ℤ) (key : String) (v : V)
    (st : ConcState V) (sched : List ℕ) : ConcState V :=
  sched.foldl (concStep now key v) st

/-! ## src/lib/ksvc-client.ts — recent trades view -/

/-- Filled-order rows of the upstream response (interface
KsvcFilledOrder). -/
structure KsvcFilledOrder : Type where
  ticker : String
  action : String
  quantity : ℚ
  price : ℚ
  date : String
  comment : Option String
  fee : Option ℚ
deriving DecidableEq, Repr

/-- The part of KsvcModelData that getRecentTrades consumes. The
filledOrders field is optional because the code guards it with
`data.filledOrders || []`. -/
structure KsvcModelData : Type where
  filledOrders : Option (List KsvcFilledOrder)
  last_date : String
deriving DecidableEq, Repr

/-- Result shape of getRecentTrades (the timestamp field, a wall-clock
string independent of the data, is omitted). The last_date field is
`data.last_date || null`: an empty string is falsy in JavaScript. -/
structure RecentTrades : Type where
  model : String
  recentTrades : List KsvcFilledOrder
  count : ℕ
  last_date : Option String
deriving DecidableEq, Repr

/-- getRecentTrades (src/lib/ksvc-client.ts lines 431-442):
filled.slice(0, 20) and Math.min(20, filled.length) over the fetched
model data. -/
def getRecentTrades (model : String) (data : KsvcModelData) : RecentTrades :=
  let filled := data.filledOrders.getD []
  { model := model,
    recentTrades := filled.take 20,
    count := min 20 filled.length,
    last_date := if data.last_date = "" then none else some data.last_date }


/-! ## Shared evaluation lemmas -/

/-- Evaluate a rational ceiling from the two bracketing inequalities. -/
theorem ceil_eval (x : ℚ) (z : ℤ) (h1 : (z : ℚ) - 1 < x) (h2 : x ≤ z) :
    ⌈x⌉ = z := by
  rw [Int.ceil_eq_iff]
  exact ⟨h1, h2⟩

/-- With a positive feed price, calculateKirkAmount is the ceiling of
the discounted USD price over the feed price. -/
theorem calculateKirkAmount_pos (base p : ℚ) (hp : 0 < p) :
    calculateKirkAmount base p = ⌈7/10 * base / p⌉ := by
  unfold calculateKirkAmount KIRK_DISCOUNT
  rw [if_neg (not_le.mpr hp)]
  congr 1
  ring

/-- With a non-positive feed price, calculateKirkAmount is 0. -/
theorem calculateKirkAmount_nonpos (base p : ℚ) (hp : p ≤ 0) :
    calculateKirkAmount base p = 0 := by
  unfold calculateKirkAmount
  exact if_pos hp

/-- kirkToRawInt on a whole display amount scales it by 10 ^ 18. -/
theorem kirkToRawInt_intCast (a : ℤ) :
    kirkToRawInt (a : ℚ) = a * 10 ^ 18 := by
  have h : ((a : ℚ) * 10 ^ KIRK_TOKEN_DECIMALS) = ((a * 10 ^ 18 : ℤ) : ℚ) := by
    unfold KIRK_TOKEN_DECIMALS
    push_cast
    ring
  rw [kirkToRawInt, h, Int.floor_intCast]

theorem kirkToRaw_intCast (a : ℤ) :
    kirkToRaw (a : ℚ) = toString (a * 10 ^ 18) := by
  rw [kirkToRaw, kirkToRawInt_intCast]


/-! ## Claim C1 -/

/-- Claim C1 as stated is false: for the registered route key summary
(baseUsdPrice = 0.01 > 0) and the feed price p = 1 > 0, the discounted
KIRK requirement is for 1 token, whose implied USD value 1 is neither
≤ 0.7 × 0.01 nor ≤ the non-discounted nominal value 0.01 — the ceiling
in calculateKirkAmount rounds the requirement up, not down. -/
theorem C1_counterexample :
    lookupEndpoint "summary" = some ⟨1/100, Tier.light⟩ ∧
    (0 : ℚ) < 1/100 ∧ (0 : ℚ) < 1 ∧
    calculateKirkAmount (1/100) 1 = 1 ∧
    ¬ ((calculateKirkAmount (1/100) 1 : ℚ) * 1 ≤ 7/10 * (1/100)) ∧
    ¬ ((calculateKirkAmount (1/100) 1 : ℚ) * 1 ≤ 1/100) := by
  have h : calculateKirkAmount (1/100) 1 = 1 := by
    rw [calculateKirkAmount_pos _ _ (by norm_num)]
    exact ceil_eval _ 1 (by norm_num) (by norm_num)
  refine ⟨rfl, by norm_num, by norm_num, h, ?_, ?_⟩ <;> rw [h] <;> norm_num

/-- Claim C1, amended: for baseUsdPrice > 0 and feed price p > 0, the
discounted requirement's implied USD value is at least 0.7 × base (the
payer never under-pays the discounted target), is strictly positive,
overshoots the target by less than one token's worth (p), and — whenever
one token is worth no more than the 30% discount margin, p ≤ 0.3 × base —
does not exceed the non-discounted requirement's nominal USD value. -/
theorem C1_kirk_quote_bounds (base p : ℚ) (hb : 0 < base) (hp : 0 < p) :
    7/10 * base ≤ (calculateKirkAmount base p : ℚ) * p ∧
    0 < (calculateKirkAmount base p : ℚ) * p ∧
    (calculateKirkAmount base p : ℚ) * p < 7/10 * base + p ∧
    (p ≤ 3/10 * base → (calculateKirkAmount base p : ℚ) * p ≤ base) := by
  rw [calculateKirkAmount_pos base p hp]
  have hle : (7/10 * base) / p ≤ ((⌈7/10 * base / p⌉ : ℤ) : ℚ) := Int.le_ceil _
  have hlt : ((⌈7/10 * base / p⌉ : ℤ) : ℚ) < (7/10 * base) / p + 1 :=
    Int.ceil_lt_add_one _
  have hlow : 7/10 * base ≤ (⌈7/10 * base / p⌉ : ℚ) * p :=
    (div_le_iff₀ hp).mp hle
  have hhigh : (⌈7/10 * base / p⌉ : ℚ) * p < 7/10 * base + p := by
    have := mul_lt_mul_of_pos_right hlt hp
    rwa [add_mul, one_mul, div_mul_cancel₀ _ (ne_of_gt hp)] at this
  refine ⟨hlow, ?_, hhigh, ?_⟩
  · have hbase : 0 < 7/10 * base := by positivity
    exact lt_of_lt_of_le hbase hlow
  · intro hsmall
    have : (⌈7/10 * base / p⌉ : ℚ) * p < base := by linarith
    exact le_of_lt this

/-- Witness for C1_kirk_quote_bounds at base = 0.05, p = 0.0000003 (the
scenario of the spec: the 116667-token quote is worth 0.0350001 USD). -/
theorem C1_kirk_quote_bounds_witness :
    7/10 * (5/100 : ℚ) ≤ (calculateKirkAmount (5/100) (3/10000000) : ℚ) * (3/10000000) ∧
    0 < (calculateKirkAmount (5/100) (3/10000000) : ℚ) * (3/10000000) ∧
    (calculateKirkAmount (5/100) (3/10000000) : ℚ) * (3/10000000) <
      7/10 * (5/100) + 3/10000000 ∧
    (3/10000000 ≤ (3:ℚ)/10 * (5/100) →
      (calculateKirkAmount (5/100) (3/10000000) : ℚ) * (3/10000000) ≤ 5/100) :=
  C1_kirk_quote_bounds (5/100) (3/10000000) (by norm_num) (by norm_num)

/-- Shape of dualTokenAccepts on a registered key with nonzero price. -/
theorem dualTokenAccepts_present (key : String) (ep : EndpointPrice) (p : ℚ)
    (hk : lookupEndpoint key = some ep) (hne : ep.usdcPrice ≠ 0) :
    dualTokenAccepts key p =
      [ { scheme := "exact", network := NETWORK, payTo := PAY_TO,
          price := { asset := USDC_ADDRESS, amount := usdcToRaw ep.usdcPrice,
                     extra := { name := "USD Coin", symbol := "USDC",
                                decimals := USDC_DECIMALS } } },
        { scheme := "upto", network := NETWORK, payTo := PAY_TO,
          price := { asset := KIRK_TOKEN_ADDRESS,
                     amount := kirkToRaw
                       ((calculateKirkAmount ep.usdcPrice p : ℤ) : ℚ),
                     extra := { name := "Kirk", symbol := "KIRK",
                                decimals := KIRK_TOKEN_DECIMALS } } } ] := by
  simp only [dualTokenAccepts, hk, if_neg hne]

/-- Evaluation of usdcToRaw at the light-tier price 0.01. -/
theorem usdcToRaw_light : usdcToRaw (1/100) = "10000" := by
  have h : usdcToRawInt (1/100) = 10000 := by
    unfold usdcToRawInt USDC_DECIMALS
    norm_num
  rw [usdcToRaw, h]
  decide

/-! ## Claim C2 -/

/-- Claim C2 fails on the code: at the failing input endpointKey =
summary (baseUsdPrice = 0.01 > 0) and feed price 0, dualTokenAccepts
does not omit the discounted option — calculateKirkAmount returns 0 and
the KIRK/upto requirement is still emitted with amountBaseUnits "0". -/
theorem C2_zero_amount_requirement_emitted :
    lookupEndpoint "summary" = some ⟨1/100, Tier.light⟩ ∧
    calculateKirkAmount (1/100) 0 = 0 ∧
    dualTokenAccepts "summary" 0 =
      [ { scheme := "exact", network := NETWORK, payTo := PAY_TO,
          price := { asset := USDC_ADDRESS, amount := "10000",
                     extra := { name := "USD Coin", symbol := "USDC",
                                decimals := USDC_DECIMALS } } },
        { scheme := "upto", network := NETWORK, payTo := PAY_TO,
          price := { asset := KIRK_TOKEN_ADDRESS, amount := "0",
                     extra := { name := "Kirk", symbol := "KIRK",
                                decimals := KIRK_TOKEN_DECIMALS } } } ] := by
  have hcalc : calculateKirkAmount (1/100) 0 = 0 :=
    calculateKirkAmount_nonpos _ _ (le_refl 0)
  refine ⟨rfl, hcalc, ?_⟩
  rw [dualTokenAccepts_present "summary" ⟨1/100, Tier.light⟩ 0 rfl (by norm_num)]
  rw [show ((⟨1/100, Tier.light⟩ : EndpointPrice)).usdcPrice = 1/100 from rfl]
  rw [usdcToRaw_light, hcalc]
  rw [kirkToRaw_intCast]
  decide

/-! ## Claim C3 -/

/-- KIRK amount for the summary route at the feed price 0.0000003. -/
theorem calc_summary_init : calculateKirkAmount (1/100) (3/10000000) = 23334 := by
  rw [calculateKirkAmount_pos _ _ (by norm_num)]
  exact ceil_eval _ 23334 (by norm_num) (by norm_num)

/-- KIRK amount for the summary route at the feed price 0.0000006. -/
theorem calc_summary_refreshed :
    calculateKirkAmount (1/100) (6/10000000) = 11667 := by
  rw [calculateKirkAmount_pos _ _ (by norm_num)]
  exact ceil_eval _ 11667 (by norm_num) (by norm_num)

/-- Requirement set of the summary route at the feed price 0.0000003. -/
theorem dualTokenAccepts_summary_init :
    dualTokenAccepts "summary" (3/10000000) =
      [ { scheme := "exact", network := NETWORK, payTo := PAY_TO,
          price := { asset := USDC_ADDRESS, amount := "10000",
                     extra := { name := "USD Coin", symbol := "USDC",
                                decimals := USDC_DECIMALS } } },
        { scheme := "upto", network := NETWORK, payTo := PAY_TO,
          price := { asset := KIRK_TOKEN_ADDRESS,
                     amount := "23334000000000000000000",
                     extra := { name := "Kirk", symbol := "KIRK",
                                decimals := KIRK_TOKEN_DECIMALS } } } ] := by
  rw [dualTokenAccepts_present "summary" ⟨1/100, Tier.light⟩ (3/10000000) rfl
        (by norm_num)]
  rw [show ((⟨1/100, Tier.light⟩ : EndpointPrice)).usdcPrice = 1/100 from rfl]
  rw [usdcToRaw_light, calc_summary_init, kirkToRaw_intCast]
  decide

/-- Requirement set of the summary route at the feed price 0.0000006. -/
theorem dualTokenAccepts_summary_refreshed :
    dualTokenAccepts "summary" (6/10000000) =
      [ { scheme := "exact", network := NETWORK, payTo := PAY_TO,
          price := { asset := USDC_ADDRESS, amount := "10000",
                     extra := { name := "USD Coin", symbol := "USDC",
                                decimals := USDC_DECIMALS } } },
        { scheme := "upto", network := NETWORK, payTo := PAY_TO,
          price := { asset := KIRK_TOKEN_ADDRESS,
                     amount := "11667000000000000000000",
                     extra := { name := "Kirk", symbol := "KIRK",
                                decimals := KIRK_TOKEN_DECIMALS } } } ] := by
  rw [dualTokenAccepts_present "summary" ⟨1/100, Tier.light⟩ (6/10000000) rfl
        (by norm_num)]
  rw [show ((⟨1/100, Tier.light⟩ : EndpointPrice)).usdcPrice = 1/100 from rfl]
  rw [usdcToRaw_light, calc_summary_refreshed, kirkToRaw_intCast]
  decide

/-- Claim C3 fails on the code: create the middleware at time 0 with
feed price 0.0000003, then let the periodic refresh observe the new
feed price 0.0000006 at time 10^9 ms (well past the 5-minute TTL). The
price cache now holds the new snapshot, but the middleware still quotes
the summary route from the requirement table built at creation — and
that table differs from the one the current price would produce. -/
theorem C3_counterexample :
    (runRefreshes (createPaymentMiddleware none 0 (some (3/10000000)))
        [(1000000000, some (6/10000000))]).priceCache =
      some ⟨6/10000000, 1000000000⟩ ∧
    quoteForRoute
        (runRefreshes (createPaymentMiddleware none 0 (some (3/10000000)))
          [(1000000000, some (6/10000000))])
        "GET /models/[model]/summary" =
      some (dualTokenAccepts "summary" (3/10000000)) ∧
    dualTokenAccepts "summary" (3/10000000) ≠
      dualTokenAccepts "summary" (6/10000000) := by
  have hfetch1 : fetchKirkPrice none 0 (some (3/10000000)) =
      (3/10000000, some ⟨3/10000000, 0⟩) := by
    simp only [fetchKirkPrice, fetchKirkPriceRefresh]
    rw [if_pos (by norm_num : (0:ℚ) < 3/10000000)]
  have hfetch2 : fetchKirkPrice (some ⟨3/10000000, 0⟩) 1000000000
      (some (6/10000000)) = (6/10000000, some ⟨6/10000000, 1000000000⟩) := by
    simp only [fetchKirkPrice, fetchKirkPriceRefresh]
    rw [if_neg (by norm_num [PRICE_CACHE_TTL] :
          ¬ ((1000000000:ℤ) - 0 < PRICE_CACHE_TTL))]
    rw [if_pos (by norm_num : (0:ℚ) < 6/10000000)]
  have hst0 : createPaymentMiddleware none 0 (some (3/10000000)) =
      ⟨some ⟨3/10000000, 0⟩, buildRoutesConfig (3/10000000)⟩ := by
    simp only [createPaymentMiddleware, hfetch1]
  have hst1 : runRefreshes (createPaymentMiddleware none 0 (some (3/10000000)))
      [(1000000000, some (6/10000000))] =
      ⟨some ⟨6/10000000, 1000000000⟩, buildRoutesConfig (3/10000000)⟩ := by
    rw [hst0]
    show refreshTick ⟨some ⟨3/10000000, 0⟩, buildRoutesConfig (3/10000000)⟩
        1000000000 (some (6/10000000)) = _
    simp only [refreshTick, hfetch2]
  refine ⟨?_, ?_, ?_⟩
  · rw [hst1]
  · rw [hst1]
    rfl
  · rw [dualTokenAccepts_summary_init, dualTokenAccepts_summary_refreshed]
    decide

/-- The refresh interval never touches the routes table the middleware
captured at creation. -/
theorem routes_preserved (st : MiddlewareState) (evs : List (ℤ × Option ℚ)) :
    (runRefreshes st evs).routes = st.routes := by
  induction evs generalizing st with
  | nil => rfl
  | cons ev rest ih =>
      show (runRefreshes (refreshTick st ev.1 ev.2) rest).routes = st.routes
      rw [ih]
      rfl

/-- Claim C3, amended: the requirement sets the payment middleware
quotes are the ones computed from the price-feed snapshot current at
middleware creation; any sequence of later price refreshes updates the
price cache only, and every route is still quoted from the
creation-time table. -/
theorem C3_quotes_frozen_at_creation (cache : Option PriceSnapshot) (now : ℤ)
    (res : Option ℚ) (evs : List (ℤ × Option ℚ)) (routeKey : String) :
    quoteForRoute (runRefreshes (createPaymentMiddleware cache now res) evs)
        routeKey =
      quoteForRoute (createPaymentMiddleware cache now res) routeKey ∧
    (runRefreshes (createPaymentMiddleware cache now res) evs).routes =
      buildRoutesConfig (fetchKirkPrice cache now res).1 := by
  have h := routes_preserved (createPaymentMiddleware cache now res) evs
  constructor
  · unfold quoteForRoute
    rw [h]
  · rw [h]
    rfl

/-! ## Claim C4 -/

/-- Claim C4: for every key present in the pricing registry and a
positive feed price, a positive base price yields exactly two
requirements — the USDC one under scheme exact and the KIRK one under
scheme upto (so the set is non-empty with one requirement per scheme) —
and a zero base price yields exactly the empty list. -/
theorem C4_requirement_set_shape (key : String) (ep : EndpointPrice) (p : ℚ)
    (hk : lookupEndpoint key = some ep) (hp : 0 < p) :
    (0 < ep.usdcPrice →
      ∃ r1 r2 : Requirement, dualTokenAccepts key p = [r1, r2] ∧
        r1.scheme = "exact" ∧ r1.price.asset = USDC_ADDRESS ∧
        r2.scheme = "upto" ∧ r2.price.asset = KIRK_TOKEN_ADDRESS ∧
        r1.scheme ≠ r2.scheme) ∧
    (ep.usdcPrice = 0 → dualTokenAccepts key p = []) := by
  constructor
  · intro hpos
    rw [dualTokenAccepts_present key ep p hk (ne_of_gt hpos)]
    refine ⟨_, _, rfl, rfl, rfl, rfl, rfl, ?_⟩
    show ("exact" : String) ≠ "upto"
    decide
  · intro h0
    simp only [dualTokenAccepts, hk, if_pos h0]

/-- Witness for C4_requirement_set_shape: the summary route (0.01 USD)
at feed price 0.0000003 gets the two-scheme requirement pair, and the
free health route gets the empty list. -/
theorem C4_requirement_set_shape_witness :
    (∃ r1 r2 : Requirement,
      dualTokenAccepts "summary" (3/10000000) = [r1, r2] ∧
      r1.scheme = "exact" ∧ r1.price.asset = USDC_ADDRESS ∧
      r2.scheme = "upto" ∧ r2.price.asset = KIRK_TOKEN_ADDRESS ∧
      r1.scheme ≠ r2.scheme) ∧
    dualTokenAccepts "health" (3/10000000) = [] :=
  ⟨(C4_requirement_set_shape "summary" ⟨1/100, Tier.light⟩ (3/10000000) rfl
      (by norm_num)).1 (by norm_num),
   (C4_requirement_set_shape "health" ⟨0, Tier.free⟩ (3/10000000) rfl
      (by norm_num)).2 rfl⟩

/-! ## Claim C5 -/

/-- The fallback value of the price feed is positive whenever every
cached snapshot has a positive price. -/
theorem kirkPriceFallback_pos (cache : Option PriceSnapshot)
    (hinv : ∀ s, cache = some s → 0 < s.priceUsd) :
    0 < kirkPriceFallback cache := by
  cases cache with
  | none => norm_num [kirkPriceFallback, KIRK_FLOOR_PRICE]
  | some s =>
      have hs := hinv s rfl
      simp only [kirkPriceFallback]
      rw [if_neg (ne_of_gt hs)]
      exact hs

/-- With a positively priced snapshot cached, the fallback is exactly
the cached price. -/
theorem kirkPriceFallback_some (s : PriceSnapshot) (hs : 0 < s.priceUsd) :
    kirkPriceFallback (some s) = s.priceUsd := by
  simp only [kirkPriceFallback]
  rw [if_neg (ne_of_gt hs)]

/-- Behaviour of the refresh path: the returned price is positive, the
snapshot invariant is preserved, and a failed or non-positive fetch
falls back without touching the cache. -/
theorem fetchKirkPriceRefresh_spec (cache : Option PriceSnapshot) (now : ℤ)
    (res : Option ℚ) (hinv : ∀ s, cache = some s → 0 < s.priceUsd) :
    0 < (fetchKirkPriceRefresh cache now res).1 ∧
    (∀ s, (fetchKirkPriceRefresh cache now res).2 = some s → 0 < s.priceUsd) ∧
    ((res = none ∨ ∃ p, res = some p ∧ p ≤ 0) →
      fetchKirkPriceRefresh cache now res = (kirkPriceFallback cache, cache)) := by
  cases res with
  | none =>
      simp only [fetchKirkPriceRefresh]
      exact ⟨kirkPriceFallback_pos cache hinv, fun s hs => hinv s hs,
             fun _ => by trivial⟩
  | some p =>
      by_cases hp : 0 < p
      · simp only [fetchKirkPriceRefresh, if_pos hp]
        refine ⟨hp, ?_, ?_⟩
        · intro s hs
          injection hs with hs
          rw [← hs]
          exact hp
        · rintro (h | ⟨q, hq, hle⟩)
          · exact absurd h (by simp)
          · injection hq with hq
            rw [← hq] at hle
            exact absurd hp (not_lt.mpr hle)
      · simp only [fetchKirkPriceRefresh, if_neg hp]
        exact ⟨kirkPriceFallback_pos cache hinv, fun s hs => hinv s hs,
               fun _ => by trivial⟩

/-- Claim C5: assuming every cached snapshot has a positive price (an
invariant the cache-update path maintains, since it only stores fetched
prices that passed the `priceUsd > 0` test), every call to
fetchKirkPrice returns a strictly positive price and preserves the
invariant; on a failed or non-positive fetch it returns the cached
price with the cache unchanged when a snapshot exists, and the
hard-coded floor price 0.0000003 when none exists. The model is a total
function, reflecting that the code catches the fetch exception and
never throws. -/
theorem C5_price_feed_fallback_and_positivity (cache : Option PriceSnapshot)
    (now : ℤ) (res : Option ℚ)
    (hinv : ∀ s, cache = some s → 0 < s.priceUsd) :
    0 < (fetchKirkPrice cache now res).1 ∧
    (∀ s, (fetchKirkPrice cache now res).2 = some s → 0 < s.priceUsd) ∧
    ((res = none ∨ ∃ p, res = some p ∧ p ≤ 0) →
      (∀ s, cache = some s →
        (fetchKirkPrice cache now res).1 = s.priceUsd ∧
        (fetchKirkPrice cache now res).2 = cache) ∧
      (cache = none →
        (fetchKirkPrice cache now res).1 = KIRK_FLOOR_PRICE ∧
        (fetchKirkPrice cache now res).2 = none)) := by
  cases cache with
  | none =>
      have h := fetchKirkPriceRefresh_spec none now res hinv
      simp only [fetchKirkPrice]
      refine ⟨h.1, h.2.1, ?_⟩
      intro hfail
      refine ⟨?_, ?_⟩
      · intro s hs
        exact absurd hs (by simp)
      · intro _
        rw [h.2.2 hfail]
        exact ⟨rfl, rfl⟩
  | some c =>
      have hc := hinv c rfl
      by_cases hfresh : now - c.fetchedAt < PRICE_CACHE_TTL
      · simp only [fetchKirkPrice, if_pos hfresh]
        refine ⟨hc, ?_, ?_⟩
        · intro s hs
          injection hs with hs
          rw [← hs]
          exact hc
        · intro _
          refine ⟨?_, ?_⟩
          · intro s hs
            injection hs with hs
            rw [← hs]
            exact ⟨by trivial, by trivial⟩
          · intro h
            exact absurd h (by simp)
      · have h := fetchKirkPriceRefresh_spec (some c) now res hinv
        simp only [fetchKirkPrice, if_neg hfresh]
        refine ⟨h.1, h.2.1, ?_⟩
        intro hfail
        refine ⟨?_, ?_⟩
        · intro s hs
          injection hs with hs
          rw [← hs]
          rw [h.2.2 hfail]
          exact ⟨kirkPriceFallback_some c hc, rfl⟩
        · intro hnone
          exact absurd hnone (by simp)

/-- Witness for C5_price_feed_fallback_and_positivity: with a cached
snapshot at price 0.5 fetched at time 0 and a failed fetch at time
400000 (past the 5-minute TTL), the cached price is served with the
cache unchanged; with no cache and a failed fetch, the floor is served. -/
theorem C5_price_feed_fallback_and_positivity_witness :
    0 < (fetchKirkPrice (some ⟨1/2, 0⟩) 400000 none).1 ∧
    (fetchKirkPrice (some ⟨1/2, 0⟩) 400000 none).1 = 1/2 ∧
    (fetchKirkPrice (some ⟨1/2, 0⟩) 400000 none).2 = some ⟨1/2, 0⟩ ∧
    (fetchKirkPrice none 0 none).1 = KIRK_FLOOR_PRICE := by
  have hinv1 : ∀ s, (some (⟨1/2, 0⟩ : PriceSnapshot)) = some s → 0 < s.priceUsd := by
    intro s hs
    injection hs with hs
    rw [← hs]
    norm_num
  have h1 := C5_price_feed_fallback_and_positivity (some ⟨1/2, 0⟩) 400000 none hinv1
  have h2 := C5_price_feed_fallback_and_positivity none 0 none
    (by intro s hs; exact absurd hs (by simp))
  refine ⟨h1.1, ?_, ?_, ?_⟩
  · exact ((h1.2.2 (Or.inl rfl)).1 ⟨1/2, 0⟩ rfl).1
  · exact ((h1.2.2 (Or.inl rfl)).1 ⟨1/2, 0⟩ rfl).2
  · exact ((h2.2.2 (Or.inl rfl)).2 rfl).1

/-! ## Claim C6 -/

/-- Claim C6 fails on the code: a route key absent from the pricing
registry is not a fatal configuration error — dualTokenAccepts simply
returns the empty requirement set for it at request time, which is
exactly what it returns for the free (never gated) health route. -/
theorem C6_counterexample :
    lookupEndpoint "not-in-registry" = none ∧
    dualTokenAccepts "not-in-registry" 1 = [] ∧
    dualTokenAccepts "health" 1 = [] := by
  exact ⟨rfl, rfl, rfl⟩

/-- Claim C6, amended: a route key absent from the registry is handled
per request, not at startup — dualTokenAccepts returns the empty
requirement set for it under every feed price, the same ungated result
a free route gets; separately, every route that buildRoutesConfig
actually exposes has a registered key with a nonzero price, so no
exposed paid route hits the absent-key path (its accepts list is never
empty). -/
theorem C6_absent_key_silently_ungated (key : String) (p : ℚ)
    (h : lookupEndpoint key = none) :
    dualTokenAccepts key p = [] ∧
    (∀ q : ℚ, ∀ kv ∈ buildRoutesConfig q, kv.2.accepts ≠ []) := by
  constructor
  · simp only [dualTokenAccepts, h]
  · intro q kv hkv
    have hne : ∀ key2 : String, ∀ ep : EndpointPrice,
        lookupEndpoint key2 = some ep → ep.usdcPrice ≠ 0 →
        dualTokenAccepts key2 q ≠ [] := by
      intro key2 ep hk hnz
      rw [dualTokenAccepts_present key2 ep q hk hnz]
      simp
    simp only [buildRoutesConfig, List.mem_cons, List.not_mem_nil,
      or_false] at hkv
    rcases hkv with h1 | h1 | h1 | h1 | h1 | h1 | h1 | h1 | h1 | h1 | h1 | h1
      | h1 | h1 | h1
    all_goals first
      | (rw [h1]; exact hne "summary" ⟨1/100, Tier.light⟩ rfl (by norm_num))
      | (rw [h1]; exact hne "model-info" ⟨1/100, Tier.light⟩ rfl (by norm_num))
      | (rw [h1]; exact hne "leaderboard" ⟨1/100, Tier.light⟩ rfl (by norm_num))
      | (rw [h1]; exact hne "performance" ⟨5/100, Tier.standard⟩ rfl (by norm_num))
      | (rw [h1]; exact hne "holdings" ⟨5/100, Tier.standard⟩ rfl (by norm_num))
      | (rw [h1]; exact hne "holdings-top" ⟨5/100, Tier.standard⟩ rfl (by norm_num))
      | (rw [h1]; exact hne "holding" ⟨5/100, Tier.standard⟩ rfl (by norm_num))
      | (rw [h1]; exact hne "stats" ⟨5/100, Tier.standard⟩ rfl (by norm_num))
      | (rw [h1]; exact hne "history-monthly" ⟨10/100, Tier.deep⟩ rfl (by norm_num))
      | (rw [h1]; exact hne "tradebook" ⟨10/100, Tier.deep⟩ rfl (by norm_num))
      | (rw [h1]; exact hne "positions" ⟨10/100, Tier.deep⟩ rfl (by norm_num))
      | (rw [h1]; exact hne "compare" ⟨10/100, Tier.deep⟩ rfl (by norm_num))
      | (rw [h1]; exact hne "trades-recent" ⟨10/100, Tier.signals⟩ rfl (by norm_num))
      | (rw [h1]; exact hne "trades-filled" ⟨10/100, Tier.signals⟩ rfl (by norm_num))
      | (rw [h1]; exact hne "trades-pending" ⟨10/100, Tier.signals⟩ rfl (by norm_num))
      | exact absurd h1 (by simp)

/-- Witness for C6_absent_key_silently_ungated at an unregistered key
and feed price 1. -/
theorem C6_absent_key_silently_ungated_witness :
    dualTokenAccepts "not-in-registry" 1 = [] ∧
    (∀ q : ℚ, ∀ kv ∈ buildRoutesConfig q, kv.2.accepts ≠ []) :=
  C6_absent_key_silently_ungated "not-in-registry" 1 rfl

/-! ## Claim C7 -/

/-- Setting at the index right after a prefix replaces the head of the
suffix. -/
theorem list_set_length_append {α : Type} (l1 l2 : List α) (a b : α) :
    (l1 ++ a :: l2).set l1.length b = l1 ++ b :: l2 := by
  induction l1 with
  | nil => rfl
  | cons x xs ih =>
      simp only [List.cons_append, List.length_cons, List.set_cons_succ, ih]

/-- Lookup at the index right after a prefix hits the head of the
suffix. -/
theorem list_getElem_length_append {α : Type} (l1 l2 : List α) (a : α) :
    (l1 ++ a :: l2)[l1.length]? = some a := by
  induction l1 with
  | nil => simp
  | cons x xs ih =>
      simp only [List.cons_append, List.length_cons, List.getElem?_cons_succ, ih]

/-- Overwriting an entry twice is the same as overwriting it once. -/
theorem cacheSet_cacheSet {V : Type} (c : Cache V) (key : String)
    (e1 e2 : CacheEntry V) :
    cacheSet (cacheSet c key e1) key e2 = cacheSet c key e2 := by
  induction c with
  | nil => simp [cacheSet]
  | cons kv rest ih =>
      by_cases hk : kv.1 == key
      · simp [cacheSet, hk]
      · simp [cacheSet, hk, ih]

/-- Phase one of the all-miss interleaving: the first k calls each run
their cache check against the still-empty cache, so each of them
invokes the upstream fetcher. -/
theorem concRun_starts {V : Type} (now : ℤ) (key : String) (v : V) (n : ℕ) :
    ∀ k, k ≤ n →
      concRun now key v (concInit V n) (List.range k) =
        ⟨[], k, List.replicate k CallState.fetching ++
                List.replicate (n - k) CallState.start⟩ := by
  intro k
  induction k with
  | zero =>
      intro _
      simp [concRun, concInit]
  | succ k ih =>
      intro hk
      have hk' : k ≤ n := Nat.le_of_succ_le hk
      have hm : n - k = (n - (k + 1)) + 1 := by omega
      have hstep : concRun now key v (concInit V n) (List.range k ++ [k]) =
          concStep now key v
            (concRun now key v (concInit V n) (List.range k)) k := by
        simp [concRun, List.foldl_append]
      rw [List.range_succ, hstep, ih hk']
      have hget : (List.replicate k (CallState.fetching (V := V)) ++
          List.replicate (n - k) CallState.start)[k]? =
          some CallState.start := by
        rw [hm, List.replicate_succ]
        have := list_getElem_length_append
          (List.replicate k (CallState.fetching (V := V)))
          (List.replicate (n - (k + 1)) CallState.start) CallState.start
        rwa [List.length_replicate] at this
      have hset : (List.replicate k (CallState.fetching (V := V)) ++
          List.replicate (n - k) CallState.start).set k CallState.fetching =
          List.replicate (k + 1) CallState.fetching ++
          List.replicate (n - (k + 1)) CallState.start := by
        rw [hm, List.replicate_succ]
        have := list_set_length_append
          (List.replicate k (CallState.fetching (V := V)))
          (List.replicate (n - (k + 1)) CallState.start)
          CallState.start CallState.fetching
        rw [List.length_replicate] at this
        rw [this, List.replicate_succ']
        simp
      simp only [concStep, hget]
      show ConcState.mk [] (k + 1) _ = _
      rw [hset]

/-- Phase two of the all-miss interleaving: each of the n in-flight
calls resumes, stores its own fetch result and finishes. -/
theorem concRun_completions {V : Type} (now : ℤ) (key : String) (v : V)
    (n : ℕ) (c0 : Cache V) :
    ∀ j, j ≤ n →
      concRun now key v ⟨c0, n, List.replicate n CallState.fetching⟩
          (List.range j) =
        ⟨if j = 0 then c0 else cacheSet c0 key ⟨v, now + CACHE_TTL⟩, n,
         List.replicate j (CallState.done v) ++
         List.replicate (n - j) CallState.fetching⟩ := by
  intro j
  induction j with
  | zero =>
      intro _
      simp [concRun]
  | succ j ih =>
      intro hj
      have hj' : j ≤ n := Nat.le_of_succ_le hj
      have hm : n - j = (n - (j + 1)) + 1 := by omega
      have hstep : concRun now key v
            ⟨c0, n, List.replicate n CallState.fetching⟩ (List.range j ++ [j]) =
          concStep now key v
            (concRun now key v ⟨c0, n, List.replicate n CallState.fetching⟩
              (List.range j)) j := by
        simp [concRun, List.foldl_append]
      rw [List.range_succ, hstep, ih hj']
      have hget : (List.replicate j (CallState.done v) ++
          List.replicate (n - j) (CallState.fetching (V := V)))[j]? =
          some CallState.fetching := by
        rw [hm, List.replicate_succ]
        have := list_getElem_length_append
          (List.replicate j (CallState.done v))
          (List.replicate (n - (j + 1)) (CallState.fetching (V := V)))
          CallState.fetching
        rwa [List.length_replicate] at this
      have hset : (List.replicate j (CallState.done v) ++
          List.replicate (n - j) (CallState.fetching (V := V))).set j
            (CallState.done v) =
          List.replicate (j + 1) (CallState.done v) ++
          List.replicate (n - (j + 1)) CallState.fetching := by
        rw [hm, List.replicate_succ]
        have := list_set_length_append
          (List.replicate j (CallState.done v))
          (List.replicate (n - (j + 1)) (CallState.fetching (V := V)))
          CallState.fetching (CallState.done v)
        rw [List.length_replicate] at this
        rw [this, List.replicate_succ']
        simp
      simp only [concStep, hget]
      show ConcState.mk _ n _ = _
      rw [hset]
      by_cases h0 : j = 0
      · subst h0
        simp
      · rw [if_neg h0, if_neg (by omega)]
        rw [cacheSet_cacheSet]

/-- Claim C7 fails on the code: two concurrent cachedFetch calls for
the key of model usa-model1 with no live entry, interleaved so that
both run their cache check before either fetch resolves (the schedule
0,1,0,1), both complete — but the upstream fetcher is invoked twice,
not exactly once. -/
theorem C7_counterexample :
    (concRun 0 "model:usa-model1" (42 : ℕ) (concInit ℕ 2) [0, 1, 0, 1]).calls =
      [CallState.done 42, CallState.done 42] ∧
    (concRun 0 "model:usa-model1" (42 : ℕ) (concInit ℕ 2)
        [0, 1, 0, 1]).fetchCount = 2 ∧
    (concRun 0 "model:usa-model1" (42 : ℕ) (concInit ℕ 2)
        [0, 1, 0, 1]).fetchCount ≠ 1 := by
  refine ⟨?_, ?_, ?_⟩ <;> decide

/-- Claim C7, amended: cachedFetch has no single-flight coalescing. In
the interleaving where all n concurrent calls for one key run their
cache check before any upstream fetch resolves, the upstream fetcher is
invoked once per caller — n times, not once — and every caller finishes
with the value of its own fetch. -/
theorem C7_no_single_flight {V : Type} (n : ℕ) (now : ℤ) (key : String)
    (v : V) :
    (concRun now key v (concInit V n)
        (List.range n ++ List.range n)).fetchCount = n ∧
    (concRun now key v (concInit V n) (List.range n ++ List.range n)).calls =
      List.replicate n (CallState.done v) := by
  have hsplit : concRun now key v (concInit V n)
      (List.range n ++ List.range n) =
      concRun now key v (concRun now key v (concInit V n) (List.range n))
        (List.range n) := by
    simp [concRun, List.foldl_append]
  have hA := concRun_starts now key v n n (le_refl n)
  have hAclean : concRun now key v (concInit V n) (List.range n) =
      ⟨[], n, List.replicate n CallState.fetching⟩ := by
    rw [hA]
    simp
  have hB := concRun_completions now key v n [] n (le_refl n)
  rw [hsplit, hAclean, hB]
  simp

/-! ## Claim C8 -/

/-- Claim C8: sequential semantics of cachedFetch. A live entry is
returned as-is without consulting the fetcher and without modifying the
cache; on a miss (no entry, or an expired one) a successful fetch is
stored under the key with expiry now + CACHE_TTL (one hour) and
returned, while a throwing fetch propagates its error with the cache
left unchanged. -/
theorem C8_cachedFetch_semantics {V E : Type} (c : Cache V) (now : ℤ)
    (key : String) (fetcher : Except E V) :
    (∀ entry, cacheGet c key = some entry → now < entry.expires →
      cachedFetch c now key fetcher = (Except.ok entry.data, c)) ∧
    ((cacheGet c key = none ∨
        ∃ entry, cacheGet c key = some entry ∧ ¬ now < entry.expires) →
      (∀ v, fetcher = Except.ok v →
        cachedFetch c now key fetcher =
          (Except.ok v, cacheSet c key ⟨v, now + CACHE_TTL⟩)) ∧
      (∀ e, fetcher = Except.error e →
        cachedFetch c now key fetcher = (Except.error e, c))) := by
  constructor
  · intro entry hget hlive
    simp only [cachedFetch, hget, if_pos hlive]
  · rintro (hmiss | ⟨entry, hget, hexp⟩)
    · constructor
      · rintro v rfl
        simp only [cachedFetch, hmiss]
      · rintro e rfl
        simp only [cachedFetch, hmiss]
    · constructor
      · rintro v rfl
        simp only [cachedFetch, hget, if_neg hexp]
      · rintro e rfl
        simp only [cachedFetch, hget, if_neg hexp]

/-- Witness for C8_cachedFetch_semantics: a live hit at time 50 against
an entry expiring at 100, a miss on the empty cache with a successful
fetch, and a miss on the empty cache with a throwing fetch. -/
theorem C8_cachedFetch_semantics_witness :
    cachedFetch [("model:usa-model1", (⟨5, 100⟩ : CacheEntry ℕ))] 50
        "model:usa-model1" (Except.ok 7 : Except String ℕ) =
      (Except.ok 5, [("model:usa-model1", ⟨5, 100⟩)]) ∧
    cachedFetch ([] : Cache ℕ) 0 "model:usa-model1"
        (Except.ok 7 : Except String ℕ) =
      (Except.ok 7, cacheSet [] "model:usa-model1" ⟨7, 0 + CACHE_TTL⟩) ∧
    cachedFetch ([] : Cache ℕ) 0 "model:usa-model1"
        (Except.error "boom" : Except String ℕ) =
      (Except.error "boom", []) := by
  refine ⟨?_, ?_, ?_⟩
  · exact (C8_cachedFetch_semantics [("model:usa-model1", ⟨5, 100⟩)] 50
      "model:usa-model1" (Except.ok 7 : Except String ℕ)).1 ⟨5, 100⟩ rfl
      (by norm_num)
  · exact ((C8_cachedFetch_semantics ([] : Cache ℕ) 0 "model:usa-model1"
      (Except.ok 7 : Except String ℕ)).2 (Or.inl rfl)).1 7 rfl
  · exact ((C8_cachedFetch_semantics ([] : Cache ℕ) 0 "model:usa-model1"
      (Except.error "boom" : Except String ℕ)).2 (Or.inl rfl)).2 "boom" rfl

/-! ## Claim C9 -/

/-- Claim C9: for non-negative USD amounts and non-negative token
amounts, usdcToRawInt and kirkToRawInt are non-negative integers, the
emitted strings usdcToRaw and kirkToRaw are decimal strings of natural
numbers (so the BigInt conversion receives an integer and no fractional
or negative base-unit amount is emitted), and the quote calculation
itself only produces non-negative token amounts. -/
theorem C9_raw_amounts_nonneg (u k : ℚ) (hu : 0 ≤ u) (hk : 0 ≤ k) :
    0 ≤ usdcToRawInt u ∧ 0 ≤ kirkToRawInt k ∧
    (∃ n : ℕ, usdcToRaw u = toString n) ∧
    (∃ n : ℕ, kirkToRaw k = toString n) ∧
    (∀ p : ℚ, 0 ≤ calculateKirkAmount u p) := by
  have h1 : 0 ≤ usdcToRawInt u := by
    unfold usdcToRawInt
    rw [Int.floor_nonneg]
    have hms : (0:ℚ) ≤ u * 10 ^ USDC_DECIMALS := mul_nonneg hu (by positivity)
    linarith
  have h2 : 0 ≤ kirkToRawInt k := by
    unfold kirkToRawInt
    rw [Int.floor_nonneg]
    exact mul_nonneg hk (by positivity)
  refine ⟨h1, h2, ?_, ?_, ?_⟩
  · obtain ⟨m, hm⟩ : ∃ m : ℕ, usdcToRawInt u = (m : ℤ) :=
      ⟨(usdcToRawInt u).toNat, (Int.toNat_of_nonneg h1).symm⟩
    refine ⟨m, ?_⟩
    show toString (usdcToRawInt u) = toString m
    rw [hm]
    rfl
  · obtain ⟨m, hm⟩ : ∃ m : ℕ, kirkToRawInt k = (m : ℤ) :=
      ⟨(kirkToRawInt k).toNat, (Int.toNat_of_nonneg h2).symm⟩
    refine ⟨m, ?_⟩
    show toString (kirkToRawInt k) = toString m
    rw [hm]
    rfl
  · intro p
    by_cases hp : p ≤ 0
    · rw [calculateKirkAmount_nonpos u p hp]
    · have hp' : 0 < p := lt_of_not_ge hp
      rw [calculateKirkAmount_pos u p hp']
      have hnum : (0:ℚ) ≤ 7/10 * u := by linarith
      exact Int.ceil_nonneg (div_nonneg hnum (le_of_lt hp'))

/-- Witness for C9_raw_amounts_nonneg at the standard-tier price 0.05
and the 116667-token quote. -/
theorem C9_raw_amounts_nonneg_witness :
    0 ≤ usdcToRawInt (5/100) ∧ 0 ≤ kirkToRawInt 116667 ∧
    (∃ n : ℕ, usdcToRaw (5/100) = toString n) ∧
    (∃ n : ℕ, kirkToRaw 116667 = toString n) ∧
    (∀ p : ℚ, 0 ≤ calculateKirkAmount (5/100) p) :=
  C9_raw_amounts_nonneg (5/100) 116667 (by norm_num) (by norm_num)

/-! ## Claim C10 -/

/-- Claim C10: when the fetched model data carries K filled orders,
getRecentTrades returns exactly the first min(K, 20) of them in their
upstream order, and its count field is min(20, K). -/
theorem C10_recent_trades_capped (model : String) (data : KsvcModelData)
    (l : List KsvcFilledOrder) (h : data.filledOrders = some l) :
    (getRecentTrades model data).recentTrades = l.take 20 ∧
    (getRecentTrades model data).recentTrades.length = min l.length 20 ∧
    (∀ i, i < min l.length 20 →
      (getRecentTrades model data).recentTrades[i]? = l[i]?) ∧
    (getRecentTrades model data).count = min 20 l.length := by
  have hr : (getRecentTrades model data).recentTrades = l.take 20 := by
    simp [getRecentTrades, h]
  have hc : (getRecentTrades model data).count = min 20 l.length := by
    simp [getRecentTrades, h]
  refine ⟨hr, ?_, ?_, hc⟩
  · rw [hr, List.length_take, Nat.min_comm]
  · intro i hi
    have h20 : i < 20 := lt_of_lt_of_le hi (min_le_right l.length 20)
    rw [hr, List.getElem?_take, if_pos h20]

/-- Witness for C10_recent_trades_capped on a two-order upstream
response: both orders are returned in order and the count is 2. -/
theorem C10_recent_trades_capped_witness :
    (getRecentTrades "usa-model1"
        ⟨some [⟨"AAPL", "buy", 10, 190, "2026-02-01", none, none⟩,
               ⟨"MSFT", "sell", 5, 410, "2026-02-02", none, none⟩],
         "2026-02-02"⟩).recentTrades =
      [⟨"AAPL", "buy", 10, 190, "2026-02-01", none, none⟩,
       ⟨"MSFT", "sell", 5, 410, "2026-02-02", none, none⟩] ∧
    (getRecentTrades "usa-model1"
        ⟨some [⟨"AAPL", "buy", 10, 190, "2026-02-01", none, none⟩,
               ⟨"MSFT", "sell", 5, 410, "2026-02-02", none, none⟩],
         "2026-02-02"⟩).count = 2 := by
  have h := C10_recent_trades_capped "usa-model1"
    ⟨some [⟨"AAPL", "buy", 10, 190, "2026-02-01", none, none⟩,
           ⟨"MSFT", "sell", 5, 410, "2026-02-02", none, none⟩],
     "2026-02-02"⟩
    [⟨"AAPL", "buy", 10, 190, "2026-02-01", none, none⟩,
     ⟨"MSFT", "sell", 5, 410, "2026-02-02", none, none⟩] rfl
  exact ⟨h.1, h.2.2.2⟩
